import Mathlib

/-!
Verification development for the DirettaRendererUPnP audio renderer.

Shallow embedding of the parts of the source relevant to the verified
properties: the lock-free ring buffer (src/sync/DirettaRingBuffer.h),
the sink push/pull interface (src/sync/DirettaSync.cpp), the audio
format equality operators (src/DirettaOutput.h and src/sync/DirettaSync.h),
the decoder open/seek logic (src/AudioEngine.cpp), and the time-string
parser of the facade (src/DirettaRenderer.cpp).

Bytes are modelled as Nat (all byte-level operations here are pure copies
or table lookups, never wrapping arithmetic).  size_t arithmetic is
modelled by Nat; the only subtraction, in getFreeSpace, cannot underflow
on the well-formed ring states produced by resize and the push/pop
operations, so truncated Nat subtraction agrees with the C++ value there.
-/

/-! ## Ring buffer: src/sync/DirettaRingBuffer.h -/

/-- State of a DirettaRingBuffer: the byte vector, its size, the two
cursors and the silence byte.  The C++ cursors are atomics; the claims
treated here are all single-threaded call sequences, so they are plain
fields. -/
structure DirettaRingBuffer where
  buffer : List Nat
  size : Nat
  writePos : Nat
  readPos : Nat
  silenceByte : Nat
  deriving Repr, DecidableEq

/-- resize(newSize, silenceByte): resize the vector, store the silence
byte, clear the cursors and fill with silence. -/
def DirettaRingBuffer.resize (newSize : Nat) (silence : Nat) : DirettaRingBuffer :=
  { buffer := List.replicate newSize silence
    size := newSize
    writePos := 0
    readPos := 0
    silenceByte := silence }

/-- getAvailable(): (wp >= rp) ? (wp - rp) : (size - rp + wp). -/
def DirettaRingBuffer.getAvailable (rb : DirettaRingBuffer) : Nat :=
  if rb.writePos ≥ rb.readPos then rb.writePos - rb.readPos
  else rb.size - rb.readPos + rb.writePos

/-- getFreeSpace(): size - available - 1. -/
def DirettaRingBuffer.getFreeSpace (rb : DirettaRingBuffer) : Nat :=
  rb.size - rb.getAvailable - 1

/-- Write a byte list into the ring starting at position pos, one byte
per slot, wrapping modulo size.  This is the index-wise form of the
two-chunk memcpy (and of the per-sample modular writes) in the source:
byte k of the stream lands at slot (pos + k) mod size. -/
def ringWrite (size : Nat) (buf : List Nat) (pos : Nat) (data : List Nat) : List Nat :=
  match data with
  | [] => buf
  | b :: rest => ringWrite size (buf.set (pos % size) b) (pos + 1) rest

/-- Read n bytes from the ring starting at position pos, wrapping modulo
size (index-wise form of the two-chunk memcpy in pop). -/
def ringRead (size : Nat) (buf : List Nat) (pos n : Nat) : List Nat :=
  (List.range n).map fun i => buf.getD ((pos + i) % size) 0

/-- push(data, len): raw byte push.  len is the length of the data list.
Truncates to free space, copies, advances the write cursor; returns the
new state and the byte count accepted. -/
def DirettaRingBuffer.push (rb : DirettaRingBuffer) (data : List Nat) :
    DirettaRingBuffer × Nat :=
  let free := rb.getFreeSpace
  let len := if data.length > free then free else data.length
  if len = 0 then (rb, 0)
  else
    let wp := rb.writePos
    let buf := ringWrite rb.size rb.buffer wp (data.take len)
    ({ rb with buffer := buf, writePos := (wp + len) % rb.size }, len)

/-- The 3-byte groups written by push24BitPacked: for sample i the source
bytes at offsets 4i, 4i+1, 4i+2 (the fourth input byte of each sample is
skipped). -/
def pack24Groups (data : List Nat) (numSamples : Nat) : List Nat :=
  (List.range numSamples).flatMap fun i =>
    [data.getD (i * 4) 0, data.getD (i * 4 + 1) 0, data.getD (i * 4 + 2) 0]

/-- push24BitPacked(data, inputSize): 4 input bytes per sample, 3 output
bytes per sample.  On overflow truncates to free/3 whole samples.
Returns the new state and numSamples * 4 input bytes consumed.
The source loop writes sample i byte j at ((wp + i*3) mod size + j) mod
size, i.e. at (wp + 3i + j) mod size, which is ringWrite of the packed
stream at wp. -/
def DirettaRingBuffer.push24BitPacked (rb : DirettaRingBuffer) (data : List Nat) :
    DirettaRingBuffer × Nat :=
  let inputSize := data.length
  let numSamples0 := inputSize / 4
  let outSize0 := numSamples0 * 3
  let free := rb.getFreeSpace
  let numSamples := if outSize0 > free then free / 3 else numSamples0
  let outSize := numSamples * 3
  if numSamples = 0 then (rb, 0)
  else
    let wp := rb.writePos
    let buf := ringWrite rb.size rb.buffer wp (pack24Groups data numSamples)
    ({ rb with buffer := buf, writePos := (wp + outSize) % rb.size }, numSamples * 4)

/-- The 4-byte groups written by push16To32: for sample i the bytes
0, 0, src[2i], src[2i+1] (shift left by 16 bits, little-endian). -/
def upsample16To32Groups (data : List Nat) (numSamples : Nat) : List Nat :=
  (List.range numSamples).flatMap fun i =>
    [0, 0, data.getD (i * 2) 0, data.getD (i * 2 + 1) 0]

/-- push16To32(data, inputSize): 2 input bytes per sample, 4 output bytes
per sample.  On overflow truncates to free/4 whole samples.  NOTE: the
source returns inputSize, not the consumed byte count, even when the
sample count was truncated by free space. -/
def DirettaRingBuffer.push16To32 (rb : DirettaRingBuffer) (data : List Nat) :
    DirettaRingBuffer × Nat :=
  let inputSize := data.length
  let numSamples0 := inputSize / 2
  let outSize0 := numSamples0 * 4
  let free := rb.getFreeSpace
  let numSamples := if outSize0 > free then free / 4 else numSamples0
  let outSize := numSamples * 4
  if numSamples = 0 then (rb, 0)
  else
    let wp := rb.writePos
    let buf := ringWrite rb.size rb.buffer wp (upsample16To32Groups data numSamples)
    ({ rb with buffer := buf, writePos := (wp + outSize) % rb.size }, inputSize)

/-- One 4-byte group of pushDSDPlanar: bytes 4g .. 4g+3 of channel c in
the planar input, each optionally mapped through the bit-reverse table,
the group optionally written in reverse byte order. -/
def dsdGroupBytes (data : List Nat) (bytesPerChannel c g : Nat)
    (table : Option (Nat → Nat)) (byteSwap : Bool) : List Nat :=
  let base := c * bytesPerChannel + g * 4
  let raw := [data.getD base 0, data.getD (base + 1) 0,
              data.getD (base + 2) 0, data.getD (base + 3) 0]
  let mapped := match table with
    | some t => raw.map t
    | none => raw
  if byteSwap then mapped.reverse else mapped

/-- pushDSDPlanar(data, inputSize, numChannels, bitReverseTable,
byteSwap): planar input, interleaved 4-byte-group output.  On overflow
truncates to free / (4 * numChannels) whole groups.  Returns the new
state and completeGroups * 4 * numChannels input bytes consumed.
The source writes group g channel c byte j at
(wp + g*4*numChannels + c*4 + j) mod size, i.e. ringWrite of the
flattened group stream at wp. -/
def DirettaRingBuffer.pushDSDPlanar (rb : DirettaRingBuffer) (data : List Nat)
    (numChannels : Nat) (table : Option (Nat → Nat)) (byteSwap : Bool) :
    DirettaRingBuffer × Nat :=
  let inputSize := data.length
  let bytesPerChannel := inputSize / numChannels
  let completeGroups0 := bytesPerChannel / 4
  let usableOutput0 := completeGroups0 * 4 * numChannels
  let free := rb.getFreeSpace
  let completeGroups :=
    if usableOutput0 > free then free / (4 * numChannels) else completeGroups0
  let usableOutput := completeGroups * 4 * numChannels
  if completeGroups = 0 then (rb, 0)
  else
    let wp := rb.writePos
    let outBytes := (List.range completeGroups).flatMap fun g =>
      (List.range numChannels).flatMap fun c =>
        dsdGroupBytes data bytesPerChannel c g table byteSwap
    let buf := ringWrite rb.size rb.buffer wp outBytes
    ({ rb with buffer := buf, writePos := (wp + usableOutput) % rb.size },
     completeGroups * 4 * numChannels)

/-- pop(dest, len): copy up to len bytes out, advance the read cursor;
returns the copied bytes (the dest contents) and the new state. -/
def DirettaRingBuffer.pop (rb : DirettaRingBuffer) (len0 : Nat) :
    List Nat × DirettaRingBuffer :=
  let avail := rb.getAvailable
  let len := if len0 > avail then avail else len0
  if len = 0 then ([], rb)
  else
    let rp := rb.readPos
    (ringRead rb.size rb.buffer rp len,
     { rb with readPos := (rp + len) % rb.size })

/-- The byte stream that spec rule RB3 prescribes for one 4-byte
little-endian S32 sample s: (s>>8)&0xFF, (s>>16)&0xFF, (s>>24)&0xFF.
This follows the wording of the spec, for comparison with the source
definition push24BitPacked. -/
def specPack24Bytes (s : Nat) : List Nat :=
  [s / 2 ^ 8 % 2 ^ 8, s / 2 ^ 16 % 2 ^ 8, s / 2 ^ 24 % 2 ^ 8]

/-! ## Sink push/pull interface: src/sync/DirettaSync.cpp -/

/-- DirettaBuffer::POST_ONLINE_SILENCE_BUFFERS (src/sync/DirettaSync.h). -/
def POST_ONLINE_SILENCE_BUFFERS : Nat := 50

/-- 8-bit reversal, the function tabulated by the 256-entry
bitReverseTable at the top of src/sync/DirettaSync.cpp. -/
def bitReverse8 (b : Nat) : Nat :=
  (List.range 8).foldl (fun acc i => acc * 2 + b / 2 ^ i % 2) 0

/-- The DirettaSync state read and written by sendAudio and
getNewStream.  The online field models the is_online() query answered
by the opaque sink SDK; the remaining fields are members of
DirettaSync. -/
structure DirettaSync where
  ring : DirettaRingBuffer
  bytesPerBuffer : Nat
  draining : Bool
  stopRequested : Bool
  online : Bool
  isDsdMode : Bool
  need24BitPack : Bool
  need16To32Upsample : Bool
  needDsdBitReversal : Bool
  needDsdByteSwap : Bool
  channels : Nat
  bytesPerSample : Nat
  prefillComplete : Bool
  prefillTarget : Nat
  pushCount : Nat
  silenceBuffersRemaining : Int
  postOnlineDelayDone : Bool
  stabilizationCount : Nat
  streamCount : Nat

/-- DirettaSync::sendAudio(data, numSamples): early-out on draining,
stop-requested, or sink offline; otherwise snapshot the conversion
config and push through the matching ring-buffer variant, then update
the prefill flag and the push counter when bytes were written.
Returns the ring-buffer write result and the new state. -/
def DirettaSync.sendAudio (st : DirettaSync) (data : List Nat) (numSamples : Nat) :
    Nat × DirettaSync :=
  if st.draining then (0, st)
  else if st.stopRequested then (0, st)
  else if st.online = false then (0, st)
  else
    let pushed :=
      if st.isDsdMode then
        let totalBytes := numSamples * st.channels / 8
        st.ring.pushDSDPlanar (data.take totalBytes) st.channels
          (if st.needDsdBitReversal then some bitReverse8 else none)
          st.needDsdByteSwap
      else if st.need24BitPack then
        let totalBytes := numSamples * (4 * st.channels)
        st.ring.push24BitPacked (data.take totalBytes)
      else if st.need16To32Upsample then
        let totalBytes := numSamples * (2 * st.channels)
        st.ring.push16To32 (data.take totalBytes)
      else
        let totalBytes := numSamples * (st.bytesPerSample * st.channels)
        st.ring.push (data.take totalBytes)
    let ring2 := pushed.1
    let written := pushed.2
    let st2 := { st with ring := ring2 }
    if written > 0 then
      let st3 :=
        if st2.prefillComplete = false ∧ ring2.getAvailable ≥ st2.prefillTarget
        then { st2 with prefillComplete := true }
        else st2
      (written, { st3 with pushCount := st3.pushCount + 1 })
    else (written, st2)

/-- DirettaSync::getNewStream(stream): fill one sink buffer of
bytesPerBuffer bytes.  In order: shutdown silence, stop request,
prefill, post-online stabilization, underrun check, and only then a pop
from the ring.  Returns the delivered bytes and the new state. -/
def DirettaSync.getNewStream (s : DirettaSync) : List Nat × DirettaSync :=
  let bpb := s.bytesPerBuffer
  let silence := s.ring.silenceByte
  if s.silenceBuffersRemaining > 0 then
    (List.replicate bpb silence,
     { s with silenceBuffersRemaining := s.silenceBuffersRemaining - 1 })
  else if s.stopRequested then
    (List.replicate bpb silence, s)
  else if s.prefillComplete = false then
    (List.replicate bpb silence, s)
  else if s.postOnlineDelayDone = false then
    let count := s.stabilizationCount + 1
    if count ≥ POST_ONLINE_SILENCE_BUFFERS then
      (List.replicate bpb silence,
       { s with postOnlineDelayDone := true, stabilizationCount := 0 })
    else
      (List.replicate bpb silence, { s with stabilizationCount := count })
  else
    let count := s.streamCount + 1
    let avail := s.ring.getAvailable
    if avail < bpb then
      (List.replicate bpb silence, { s with streamCount := count })
    else
      let popped := s.ring.pop bpb
      (popped.1, { s with ring := popped.2, streamCount := count })

/-! ## Audio formats: src/DirettaOutput.h and src/sync/DirettaSync.h -/

/-- AudioFormat::DSDFormat. -/
inductive DSDFormat where
  | DSF
  | DFF
  deriving Repr, DecidableEq

/-- The AudioFormat fields shared by the two struct definitions. -/
structure AudioFormat where
  sampleRate : Nat
  bitDepth : Nat
  channels : Nat
  isDSD : Bool
  isCompressed : Bool
  dsdFormat : DSDFormat
  deriving Repr, DecidableEq

/-- AudioFormat equality of src/DirettaOutput.h: mismatched isDSD is
unequal; for DSD formats a mismatched dsdFormat is unequal; otherwise
compare rate, depth and channels. -/
def outputFormatEq (a b : AudioFormat) : Bool :=
  if a.isDSD ≠ b.isDSD then false
  else if a.isDSD = true ∧ a.dsdFormat ≠ b.dsdFormat then false
  else decide (a.sampleRate = b.sampleRate ∧ a.bitDepth = b.bitDepth ∧
               a.channels = b.channels)

/-- AudioFormat equality of src/sync/DirettaSync.h: compare rate,
depth, channels and isDSD only; dsdFormat is not read. -/
def syncFormatEq (a b : AudioFormat) : Bool :=
  decide (a.sampleRate = b.sampleRate ∧ a.bitDepth = b.bitDepth ∧
          a.channels = b.channels ∧ a.isDSD = b.isDSD)

/-! ## Decoder open and seek: src/AudioEngine.cpp -/

/-- The FFmpeg codec ids distinguished by AudioDecoder::open: the four
raw DSD variants, uncompressed PCM, and everything else. -/
inductive CodecId where
  | dsdLsbf
  | dsdMsbf
  | dsdMsbfPlanar
  | dsdLsbfPlanar
  | pcm
  | other
  deriving Repr, DecidableEq

/-- The DSD-codec test of AudioDecoder::open (the four-way codec_id
disjunction). -/
def isDSDCodec : CodecId → Bool
  | .dsdLsbf => true
  | .dsdMsbf => true
  | .dsdMsbfPlanar => true
  | .dsdLsbfPlanar => true
  | _ => false

/-- The TrackInfo fields populated by AudioDecoder::open that the
verified properties read. -/
structure TrackInfo where
  sampleRate : Nat
  bitDepth : Nat
  channels : Nat
  duration : Nat
  isDSD : Bool
  dsdRate : Nat
  isCompressed : Bool
  deriving Repr, DecidableEq

/-- The DSD-detection step of AudioDecoder::open, acting on the
TrackInfo accumulated so far: isDSD starts false; for a DSD codec id
from a non-Audirvana source the decoder enters raw mode, bitDepth
becomes 1, sampleRate becomes the container packet rate times 8 and
dsdRate that bit rate divided by 44100; an Audirvana DSD stream and
every non-DSD codec fall through to PCM decoding with isDSD false.
Returns the updated TrackInfo and the rawDSD flag. -/
def openDetect (codecId : CodecId) (isAudirvana : Bool) (containerRate : Nat)
    (base : TrackInfo) : TrackInfo × Bool :=
  if isDSDCodec codecId then
    if isAudirvana then ({ base with isDSD := false }, false)
    else
      let packetRate := containerRate
      let dsdBitRate := packetRate * 8
      ({ base with isDSD := true, bitDepth := 1, sampleRate := dsdBitRate,
                   dsdRate := dsdBitRate / 44100 }, true)
  else ({ base with isDSD := false }, false)

/-- The AudioDecoder state read and written by seek. -/
structure AudioDecoder where
  formatOpen : Bool
  audioStreamIndex : Int
  rawDSD : Bool
  remainingCount : Nat
  eof : Bool
  deriving Repr, DecidableEq

/-- AudioDecoder::seek(seconds): fail with no state change when no file
is open or in raw DSD mode; otherwise the av_seek_frame outcome (an
external call, modelled by the avSeekOk oracle) decides between failure
and a successful seek that clears the remainder buffer and the EOF
flag. -/
def AudioDecoder.seek (st : AudioDecoder) (seconds : ℚ) (avSeekOk : Bool) :
    Bool × AudioDecoder :=
  if st.formatOpen = false ∨ st.audioStreamIndex < 0 then (false, st)
  else if st.rawDSD then (false, st)
  else if avSeekOk = false then (false, st)
  else
    let _ := seconds
    (true, { st with remainingCount := 0, eof := false })

/-- The AudioEngine state read and written by seek(double). -/
structure AudioEngine where
  hasDecoder : Bool
  info : TrackInfo
  samplesPlayed : Nat
  silenceCount : Nat
  isDraining : Bool
  deriving Repr, DecidableEq

/-- AudioEngine::seek(seconds): reject when no decoder is active or the
track info has sampleRate 0 or duration 0; otherwise clamp the target
to [0, duration/sampleRate], delegate to the decoder (outcome modelled
by the decoderSeekOk oracle), and on success update the sample-played
counter and clear the drain counters.  The third component records
whether the decoder seek was invoked. -/
def AudioEngine.seek (st : AudioEngine) (seconds : ℚ) (decoderSeekOk : Bool) :
    Bool × AudioEngine × Bool :=
  if st.hasDecoder = false then (false, st, false)
  else if st.info.sampleRate = 0 ∨ st.info.duration = 0 then (false, st, false)
  else
    let maxSeconds : ℚ := (st.info.duration : ℚ) / (st.info.sampleRate : ℚ)
    let s1 := if seconds < 0 then 0 else seconds
    let s2 := if s1 > maxSeconds then maxSeconds else s1
    if decoderSeekOk = false then (false, st, true)
    else
      (true,
       { st with samplesPlayed := (s2 * (st.info.sampleRate : ℚ)).floor.toNat,
                 silenceCount := 0, isDraining := false },
       true)

/-! ## Facade time-string parsing: src/DirettaRenderer.cpp -/

/-- Longest digit prefix of a character list, and the rest. -/
def takeDigits : List Char → List Char × List Char
  | [] => ([], [])
  | c :: cs =>
    if c.isDigit then
      let rest := takeDigits cs
      (c :: rest.1, rest.2)
    else ([], c :: cs)

/-- Numeric value of a digit list. -/
def digitsToNat (ds : List Char) : Nat :=
  ds.foldl (fun acc c => acc * 10 + (c.toNat - 48)) 0

/-- One %lf conversion of sscanf / one std::stod call, on the decimal
forms that occur in transport time strings: optional leading
whitespace, optional sign, digits, optional fraction.  Returns the
value and the unconsumed characters, or none when no number starts
here. -/
def scanDouble (cs0 : List Char) : Option (ℚ × List Char) :=
  let cs := cs0.dropWhile (fun c => c.isWhitespace)
  let signed : Bool × List Char :=
    match cs with
    | '-' :: r => (true, r)
    | '+' :: r => (false, r)
    | _ => (false, cs)
  let neg := signed.1
  let intPart := takeDigits signed.2
  match intPart.2 with
  | '.' :: r =>
    let fracPart := takeDigits r
    if intPart.1.isEmpty ∧ fracPart.1.isEmpty then none
    else
      let v : ℚ := (digitsToNat intPart.1 : ℚ) +
        (digitsToNat fracPart.1 : ℚ) / ((10 : ℚ) ^ fracPart.1.length)
      some (if neg then -v else v, fracPart.2)
  | _ =>
    if intPart.1.isEmpty then none
    else some (if neg then -(digitsToNat intPart.1 : ℚ) else (digitsToNat intPart.1 : ℚ),
               intPart.2)

/-- sscanf(str, "%lf:%lf:%lf", &hours, &minutes, &seconds): number of
fields matched, and the three values (unmatched fields keep their
initial 0). -/
def scanTimeFields (cs : List Char) : Nat × ℚ × ℚ × ℚ :=
  match scanDouble cs with
  | none => (0, 0, 0, 0)
  | some (h, r1) =>
    match r1 with
    | ':' :: r2 =>
      match scanDouble r2 with
      | none => (1, h, 0, 0)
      | some (m, r3) =>
        match r3 with
        | ':' :: r4 =>
          match scanDouble r4 with
          | none => (2, h, m, 0)
          | some (s, _) => (3, h, m, s)
        | _ => (2, h, m, 0)
    | _ => (1, h, 0, 0)

/-- parseTimeString of src/DirettaRenderer.cpp: when the sscanf matches
at least two fields the result is hours*3600 + minutes*60 + seconds;
otherwise fall back to std::stod, and on a parse failure return 0. -/
def parseTimeString (str : String) : ℚ :=
  let scanned := scanTimeFields str.data
  if 2 ≤ scanned.1 then
    scanned.2.1 * 3600 + scanned.2.2.1 * 60 + scanned.2.2.2
  else
    match scanDouble str.data with
    | some (v, _) => v
    | none => 0

/-! ## Shared helper lemmas -/

theorem ringWrite_length (S : Nat) (data : List Nat) (buf : List Nat) (pos : Nat) :
    (ringWrite S buf pos data).length = buf.length := by
  induction data generalizing buf pos with
  | nil => rfl
  | cons b rest ih => simp [ringWrite, ih]

theorem ringWrite_getD_lt (S : Nat) (data : List Nat) (buf : List Nat) (pos j d : Nat)
    (hS : pos + data.length ≤ S) (hj : j < pos) :
    (ringWrite S buf pos data).getD j d = buf.getD j d := by
  induction data generalizing buf pos with
  | nil => rfl
  | cons b rest ih =>
    have hpos : pos < S := by simp at hS; omega
    have hmod : pos % S = pos := Nat.mod_eq_of_lt hpos
    rw [ringWrite, hmod]
    rw [ih (buf.set pos b) (pos + 1) (by simp at hS ⊢; omega) (by omega)]
    have hne : pos ≠ j := by omega
    simp [List.getD, List.getElem?_set_ne hne]

theorem ringWrite_getD_written (S : Nat) (data : List Nat) (buf : List Nat) (pos i d : Nat)
    (hlen : buf.length = S) (hS : pos + data.length ≤ S) (hi : i < data.length) :
    (ringWrite S buf pos data).getD (pos + i) d = data.getD i d := by
  induction data generalizing buf pos i with
  | nil => simp at hi
  | cons b rest ih =>
    have hpos : pos < S := by simp at hS; omega
    have hmod : pos % S = pos := Nat.mod_eq_of_lt hpos
    rw [ringWrite, hmod]
    cases i with
    | zero =>
      have h1 := ringWrite_getD_lt S rest (buf.set pos b) (pos + 1) pos d
            (by simp at hS ⊢; omega) (by omega)
      have h2 : (buf.set pos b).getD pos d = b := by
        simp [List.getD, List.getElem?_set_self, hlen ▸ hpos]
      rw [h2] at h1
      simpa using h1
    | succ i2 =>
      have heq : pos + (i2 + 1) = (pos + 1) + i2 := by omega
      rw [heq]
      rw [ih (buf.set pos b) (pos + 1) i2 (by simp [hlen])
            (by simp at hS ⊢; omega) (by simp at hi; omega)]
      rfl

theorem min_eq_ite (a b : Nat) : min a b = if a > b then b else a := by
  rw [Nat.min_def]
  rcases Nat.lt_or_ge b a with h | h
  · rw [if_neg (by omega), if_pos h]
  · rw [if_pos (by omega), if_neg (by omega)]

/-! ## Concrete fixtures used by witnesses and counterexamples -/

/-- A DirettaSync state whose prefill flag is still clear. -/
def syncStateA : DirettaSync :=
  { ring := DirettaRingBuffer.resize 8 105
    bytesPerBuffer := 4
    draining := false
    stopRequested := false
    online := true
    isDsdMode := true
    need24BitPack := false
    need16To32Upsample := false
    needDsdBitReversal := false
    needDsdByteSwap := false
    channels := 2
    bytesPerSample := 4
    prefillComplete := false
    prefillTarget := 4
    pushCount := 0
    silenceBuffersRemaining := 0
    postOnlineDelayDone := false
    stabilizationCount := 0
    streamCount := 0 }

/-- A TrackInfo as it stands before the DSD-detection step of open. -/
def baseTrack : TrackInfo :=
  { sampleRate := 44100, bitDepth := 16, channels := 2, duration := 0,
    isDSD := false, dsdRate := 0, isCompressed := false }

/-- A decoder opened in raw DSD mode. -/
def decoderRaw : AudioDecoder :=
  { formatOpen := true, audioStreamIndex := 0, rawDSD := true,
    remainingCount := 7, eof := false }

/-- An engine state with no active decoder. -/
def engineNoDecoder : AudioEngine :=
  { hasDecoder := false, info := baseTrack, samplesPlayed := 5,
    silenceCount := 1, isDraining := true }

/-- A stereo DSD64 format with DSF bit order. -/
def dsdFmtDSF : AudioFormat :=
  { sampleRate := 2822400, bitDepth := 1, channels := 2, isDSD := true,
    isCompressed := true, dsdFormat := .DSF }

/-- The same DSD64 format with DFF bit order. -/
def dsdFmtDFF : AudioFormat := { dsdFmtDSF with dsdFormat := .DFF }

/-- A plain PCM format. -/
def pcmFmt : AudioFormat :=
  { sampleRate := 44100, bitDepth := 16, channels := 2, isDSD := false,
    isCompressed := true, dsdFormat := .DSF }

/-! ## Claim theorems -/

/-- Claim C1: the claim states that push24BitPacked keeps the upper 24
bits of each 4-byte little-endian S32 sample, emitting (s>>8)&0xFF,
(s>>16)&0xFF, (s>>24)&0xFF.  The source instead copies input bytes 0,
1, 2 of each sample, dropping the most significant byte: pushing the
single sample 0x04030201 (bytes 01 02 03 04) stores 01 02 03 in the
ring while the spec prescribes 02 03 04.  The parallel conversion in
DirettaOutput::sendAudio does emit the spec bytes, so the two
implementations in the source disagree and the ring-buffer one loses
the top 8 bits of every sample. -/
theorem push24BitPacked_keeps_low_bytes :
    (((DirettaRingBuffer.resize 16 0).push24BitPacked [1, 2, 3, 4]).1.pop 3).1
      = [1, 2, 3] ∧
    ((DirettaRingBuffer.resize 16 0).push24BitPacked [1, 2, 3, 4]).2 = 4 ∧
    specPack24Bytes 67305985 = [2, 3, 4] ∧
    ([1, 2, 3] : List Nat) ≠ [2, 3, 4] := by decide

/-- Claim C2: every push variant is claimed to return the number of
input bytes it actually consumed.  push16To32 violates this: on a ring
of size 9 (free space 8) a 6-byte input holds 3 samples whose 12
output bytes do not fit, so only 2 samples (8 output bytes, 4 input
bytes) are written, yet the function returns inputSize = 6. -/
theorem push16To32_return_not_consumed :
    ((DirettaRingBuffer.resize 9 0).push16To32 [1, 2, 3, 4, 5, 6]).2 = 6 ∧
    ((DirettaRingBuffer.resize 9 0).push16To32 [1, 2, 3, 4, 5, 6]).1.getAvailable = 8 ∧
    (8 / 4) * 2 ≠ 6 := by decide

/-- Claim C5, counterexample: the claim promises pop(n) after push(m)
on an empty ring of size S returns min(n, m) bytes for all m, n; with
S = 4 and m = n = 5 only 3 bytes come back, because push accepts at
most S - 1 = 3 bytes. -/
theorem push_pop_min_counterexample :
    (((DirettaRingBuffer.resize 4 0).push [5, 6, 7, 8, 9]).1.pop 5).1 = [5, 6, 7] ∧
    ([5, 6, 7] : List Nat).length ≠ min 5 5 := by decide

/-- Claim C5, amended: on an initially empty ring of size S, push(m
bytes) then pop(n) returns exactly the first min(n, min(m, S-1)) bytes
pushed, in order (push caps its intake at the free space S - 1). -/
theorem push_pop_take (S z : Nat) (hS : 1 ≤ S) (data : List Nat) (n : Nat) :
    ((((DirettaRingBuffer.resize S z).push data).1).pop n).1
      = data.take (min n (min data.length (S - 1))) := by
  have hfree : (DirettaRingBuffer.resize S z).getFreeSpace = S - 1 := by
    simp [DirettaRingBuffer.resize, DirettaRingBuffer.getFreeSpace,
          DirettaRingBuffer.getAvailable]
  rw [min_eq_ite data.length (S - 1)]
  set m := if data.length > S - 1 then S - 1 else data.length with hm
  have hm1 : m ≤ S - 1 := by rw [hm]; split <;> omega
  have hm2 : m ≤ data.length := by rw [hm]; split <;> omega
  have hmS : m < S := by omega
  have hpush : (DirettaRingBuffer.resize S z).push data =
      (if m = 0 then (DirettaRingBuffer.resize S z, 0)
       else ({ buffer := ringWrite S (List.replicate S z) 0 (data.take m),
               size := S, writePos := (0 + m) % S, readPos := 0,
               silenceByte := z }, m)) := by
    rw [DirettaRingBuffer.push]
    simp only [hfree]
    simp only [← hm]
    simp only [DirettaRingBuffer.resize]
  rw [hpush]
  by_cases h0 : m = 0
  · rw [if_pos h0, h0]
    simp [DirettaRingBuffer.pop, DirettaRingBuffer.resize, DirettaRingBuffer.getAvailable]
  · rw [if_neg h0]
    have hmod : (0 + m) % S = m := by
      rw [Nat.zero_add, Nat.mod_eq_of_lt hmS]
    rw [hmod]
    rw [DirettaRingBuffer.pop]
    have havail : DirettaRingBuffer.getAvailable
        { buffer := ringWrite S (List.replicate S z) 0 (data.take m),
          size := S, writePos := m, readPos := 0, silenceByte := z } = m := by
      simp [DirettaRingBuffer.getAvailable]
    simp only [havail]
    rw [min_eq_ite n m]
    set k := if n > m then m else n with hk
    have hk1 : k ≤ m := by rw [hk]; split <;> omega
    by_cases hk0 : k = 0
    · rw [if_pos hk0, hk0]
      simp
    · rw [if_neg hk0]
      rw [ringRead]
      have htake : (data.take m).length = m := by simp [Nat.min_eq_left hm2]
      apply List.ext_getElem
      · simp [Nat.min_eq_left (le_trans hk1 hm2)]
      · intro i h1 h2
        simp only [List.getElem_map, List.getElem_range]
        have hik : i < k := by simpa using h1
        have him : i < m := by omega
        have hiS : (0 + i) % S = i := by
          rw [Nat.zero_add]
          exact Nat.mod_eq_of_lt (by omega)
        rw [hiS]
        have hw := ringWrite_getD_written S (data.take m) (List.replicate S z) 0 i 0
          (by simp) (by simp [htake]; omega) (by omega)
        simp only [Nat.zero_add] at hw
        rw [hw]
        rw [List.getD_eq_getElem _ _ (by rw [htake]; omega)]
        simp [List.getElem_take]

/-- Claim C5, witness for push_pop_take at S = 4, data [1, 2, 3],
n = 2. -/
theorem push_pop_take_witness :
    1 ≤ 4 ∧ (((DirettaRingBuffer.resize 4 0).push [1, 2, 3]).1.pop 2).1
      = [1, 2, 3].take (min 2 (min ([1, 2, 3] : List Nat).length (4 - 1))) :=
  ⟨by decide, push_pop_take 4 0 (by decide) [1, 2, 3] 2⟩

/-- Claim C3: while the prefill flag is clear, getNewStream delivers a
buffer that is entirely the silence byte, and the ring (in particular
its read cursor) is only touched when the shutdown-silence,
stop-request, prefill and post-online-stabilization checks have all
passed. -/
theorem getNewStream_silence_until_prefill (s : DirettaSync) :
    (s.prefillComplete = false →
        (DirettaSync.getNewStream s).1
          = List.replicate s.bytesPerBuffer s.ring.silenceByte) ∧
    ((DirettaSync.getNewStream s).2.ring ≠ s.ring →
        s.silenceBuffersRemaining ≤ 0 ∧ s.stopRequested = false ∧
        s.prefillComplete = true ∧ s.postOnlineDelayDone = true) := by
  by_cases h1 : s.silenceBuffersRemaining > 0
  · constructor
    · intro hp
      simp [DirettaSync.getNewStream, h1]
    · intro hring
      exact absurd (by simp [DirettaSync.getNewStream, h1]) hring
  · by_cases h2 : s.stopRequested
    · constructor
      · intro hp
        simp [DirettaSync.getNewStream, h1, h2]
      · intro hring
        exact absurd (by simp [DirettaSync.getNewStream, h1, h2]) hring
    · by_cases h3 : s.prefillComplete
      · constructor
        · intro hp
          rw [hp] at h3
          exact absurd h3 (by simp)
        · intro hring
          by_cases h4 : s.postOnlineDelayDone
          · exact ⟨by omega, by simpa using h2, h3, h4⟩
          · refine absurd ?_ hring
            rw [DirettaSync.getNewStream]
            rw [if_neg (by omega), if_neg (by simpa using h2),
                if_neg (by simp [h3]), if_pos (by simp [h4])]
            by_cases h5 : s.stabilizationCount + 1 ≥ POST_ONLINE_SILENCE_BUFFERS
            · simp [h5]
            · simp [h5]
      · constructor
        · intro hp
          rw [DirettaSync.getNewStream]
          rw [if_neg (by omega), if_neg (by simpa using h2), if_pos (by simpa using h3)]
        · intro hring
          refine absurd ?_ hring
          rw [DirettaSync.getNewStream]
          rw [if_neg (by omega), if_neg (by simpa using h2), if_pos (by simpa using h3)]

/-- Claim C3, witness: on a state with the prefill flag clear, the
delivered buffer is all silence. -/
theorem getNewStream_silence_until_prefill_witness :
    (DirettaSync.getNewStream syncStateA).1
      = List.replicate syncStateA.bytesPerBuffer syncStateA.ring.silenceByte :=
  (getNewStream_silence_until_prefill syncStateA).1 rfl

/-- Claim C4, counterexample: the AudioFormat equality of
src/sync/DirettaSync.h does not consult the DSD bit-order field even
for DSD formats: two stereo DSD64 formats differing only in DSF vs DFF
bit order compare equal there, while the DirettaOutput.h equality
distinguishes them as the claim demands. -/
theorem syncFormatEq_ignores_dsdFormat :
    dsdFmtDSF.isDSD = true ∧ dsdFmtDSF.dsdFormat ≠ dsdFmtDFF.dsdFormat ∧
    syncFormatEq dsdFmtDSF dsdFmtDFF = true ∧
    outputFormatEq dsdFmtDSF dsdFmtDFF = false := by decide

/-- Claim C4, amended: the DirettaOutput.h equality returns true iff
sample rate, bit depth, channels and the DSD flag match and, when the
formats are DSD, the DSD bit order also matches; the DirettaSync.h
equality returns true iff sample rate, bit depth, channels and the DSD
flag match, with the DSD bit order never participating. -/
theorem audioFormat_eq_characterization (a b : AudioFormat) :
    (outputFormatEq a b = true ↔
      (a.sampleRate = b.sampleRate ∧ a.bitDepth = b.bitDepth ∧
       a.channels = b.channels ∧ a.isDSD = b.isDSD ∧
       (a.isDSD = true → a.dsdFormat = b.dsdFormat))) ∧
    (syncFormatEq a b = true ↔
      (a.sampleRate = b.sampleRate ∧ a.bitDepth = b.bitDepth ∧
       a.channels = b.channels ∧ a.isDSD = b.isDSD)) := by
  cases hA : a.isDSD <;> cases hB : b.isDSD <;>
    (simp [outputFormatEq, syncFormatEq, hA, hB]; try tauto)

/-- Claim C4, witness: both equalities accept a format compared with
itself. -/
theorem audioFormat_eq_characterization_witness :
    outputFormatEq pcmFmt pcmFmt = true ∧ syncFormatEq pcmFmt pcmFmt = true :=
  ⟨(audioFormat_eq_characterization pcmFmt pcmFmt).1.mpr
      ⟨rfl, rfl, rfl, rfl, fun _ => rfl⟩,
   (audioFormat_eq_characterization pcmFmt pcmFmt).2.mpr ⟨rfl, rfl, rfl, rfl⟩⟩

/-- Claim C6: whenever the DSD-detection step of AudioDecoder::open
reports a DSD stream, the recorded sample rate is 8 times the
container packet rate (the true DSD bit rate) and the DSD multiplier
is that bit rate divided by 44100. -/
theorem openDetect_dsd_bit_rate (codecId : CodecId) (aud : Bool) (rate : Nat)
    (base : TrackInfo)
    (h : (openDetect codecId aud rate base).1.isDSD = true) :
    (openDetect codecId aud rate base).1.sampleRate = rate * 8 ∧
    (openDetect codecId aud rate base).1.dsdRate = rate * 8 / 44100 := by
  rw [openDetect] at h ⊢
  split_ifs at h ⊢ with h1 h2
  simp_all

/-- Claim C6, witness for a DSD64 DSF stream: the container reports
352800 Hz, and open records 2822400 Hz with multiplier 64. -/
theorem openDetect_dsd_bit_rate_witness :
    (openDetect .dsdLsbf false 352800 baseTrack).1.isDSD = true ∧
    (openDetect .dsdLsbf false 352800 baseTrack).1.sampleRate = 352800 * 8 ∧
    (openDetect .dsdLsbf false 352800 baseTrack).1.dsdRate = 352800 * 8 / 44100 :=
  ⟨by decide, openDetect_dsd_bit_rate .dsdLsbf false 352800 baseTrack (by decide)⟩

/-- Claim C7: seek on a decoder in raw DSD mode returns false and
leaves the decoder state (EOF flag, remainder counter, everything)
unchanged, for every target position and every outcome of the
underlying container seek. -/
theorem decoder_seek_raw_dsd (st : AudioDecoder) (seconds : ℚ) (ok : Bool)
    (h : st.rawDSD = true) :
    st.seek seconds ok = (false, st) := by
  rw [AudioDecoder.seek]
  split_ifs with h1 <;> simp_all

/-- Claim C7, witness: a raw-DSD decoder rejects a seek to 3 s with no
state change. -/
theorem decoder_seek_raw_dsd_witness :
    decoderRaw.seek 3 true = (false, decoderRaw) :=
  decoder_seek_raw_dsd decoderRaw 3 true rfl

/-- Claim C9: when draining is in progress, a stop has been requested,
or the sink is offline, DirettaSync::sendAudio returns 0 and leaves
the whole state, including the ring buffer, unchanged. -/
theorem sendAudio_noop_when_inactive (st : DirettaSync) (data : List Nat)
    (numSamples : Nat)
    (h : st.draining = true ∨ st.stopRequested = true ∨ st.online = false) :
    st.sendAudio data numSamples = (0, st) := by
  rcases h with h | h | h <;> simp [DirettaSync.sendAudio, h]

/-- Claim C9, witness: a draining state ignores a push. -/
theorem sendAudio_noop_when_inactive_witness :
    DirettaSync.sendAudio { syncStateA with draining := true } [1, 2, 3, 4] 1
      = (0, { syncStateA with draining := true }) :=
  sendAudio_noop_when_inactive { syncStateA with draining := true } [1, 2, 3, 4] 1
    (Or.inl rfl)

/-- Claim C10: AudioEngine::seek(seconds) returns false without
invoking the decoder or touching the sample-played counter whenever no
decoder is open, the sample rate is 0, or the duration is 0 (so a
track with unknown duration can never be seeked). -/
theorem engine_seek_rejects (st : AudioEngine) (q : ℚ) (ok : Bool)
    (h : st.hasDecoder = false ∨ st.info.sampleRate = 0 ∨ st.info.duration = 0) :
    st.seek q ok = (false, st, false) := by
  rcases h with h | h | h
  · simp [AudioEngine.seek, h]
  · simp [AudioEngine.seek, h]
  · simp [AudioEngine.seek, h]

/-- Claim C10, witness: an engine with no decoder rejects a seek to
2 s, unchanged, decoder not called. -/
theorem engine_seek_rejects_witness :
    engineNoDecoder.seek 2 true = (false, engineNoDecoder, false) :=
  engine_seek_rejects engineNoDecoder 2 true (Or.inl rfl)

/-- Claim C8: the facade parser maps the two-field time string 03:20
to 3*3600 + 20*60 = 12000 seconds, reading the fields as
hours:minutes, whereas the claimed MM:SS reading is
3*60 + 20 = 200 seconds. -/
theorem parseTimeString_mm_ss_as_hours_minutes :
    parseTimeString "03:20" = 12000 ∧ (3 : ℚ) * 60 + 20 = 200 ∧
    (12000 : ℚ) ≠ 200 := by
  refine ⟨?_, by norm_num, by norm_num⟩
  have h : scanTimeFields "03:20".data = (2, 3, 20, 0) := by rfl
  rw [parseTimeString, h]
  norm_num
